import Mathlib

/-!
Verification of the Goodreads profile scraper (src/goodreads_scraper.py).

The scraper fetches shelf pages over HTTP, parses them with BeautifulSoup,
locates book rows, extracts per-book fields, paginates, and exports CSV.
We embed the parsed-HTML side shallowly: an abstract element tree `Node`
models the BeautifulSoup tree, and the class/href/string matchers model the
BeautifulSoup matching semantics actually exercised by the code
(`find` / `find_all` with a tag name, a `class_` string, a `class_` regex,
an `href` regex, and a `string` regex).  Network effects are modelled by a
fetch oracle `Nat → Option Node` (page number to parsed page; `none` models
a `requests.RequestException`, which `raise_for_status` also produces for a
non-2xx status).  File and console output are modelled by the pure values
the code would write.
-/

/-- Character-list test: the first list starts with the second. -/
def listLead : List Char → List Char → Bool
  | _, [] => true
  | [], _ :: _ => false
  | c :: cs, p :: ps => c == p && listLead cs ps

/-- Character-list substring search. -/
def listHasSub (pat : List Char) : List Char → Bool
  | [] => pat.isEmpty
  | c :: cs => listLead (c :: cs) pat || listHasSub pat cs

/-- Substring test: true when `pat` occurs somewhere in `s`.  This models
Python `re.search` for a literal pattern.  `pat` is assumed non-empty, which
holds for every pattern the scraper uses. -/
def containsSub (s pat : String) : Bool := listHasSub pat.toList s.toList

/-- Whitespace trimming on character lists, as Python `str.strip` with no
argument (and as the per-segment stripping of `get_text(strip=True)`). -/
def trimChars (l : List Char) : List Char :=
  ((l.dropWhile Char.isWhitespace).reverse.dropWhile Char.isWhitespace).reverse

/-- String form of `trimChars`. -/
def strTrim (s : String) : String := String.mk (trimChars s.toList)

/-- True when `s` starts with `pat`, as Python `str.startswith`. -/
def strStarts (s pat : String) : Bool := listLead s.toList pat.toList

/-- Replacement of every occurrence of a non-empty pattern, left to right,
as Python `str.replace`. -/
def listReplace (pat rep : List Char) : List Char → List Char
  | [] => []
  | c :: cs =>
    if listLead (c :: cs) pat then
      rep ++ listReplace pat rep (cs.drop (pat.length - 1))
    else c :: listReplace pat rep cs
termination_by l => l.length
decreasing_by
  · simp [List.length_drop]
    omega
  · simp

/-- String form of `listReplace`. -/
def strReplace (s pat rep : String) : String :=
  String.mk (listReplace pat.toList rep.toList s.toList)

/-- Abstract parsed-HTML tree.  An element carries its tag name, its list of
class tokens (an absent `class` attribute is the empty list), its optional
`href` attribute, and its children in document order; a text node carries its
string. -/
inductive Node : Type where
  | text (s : String) : Node
  | elem (tag : String) (classes : List String) (href : Option String)
      (children : List Node) : Node

mutual

/-- Descendants of a node in document (pre-)order, the node itself excluded.
This is the search space of BeautifulSoup `find` / `find_all` on a tag. -/
def descendants : Node → List Node
  | .text _ => []
  | .elem _ _ _ cs => descendantsList cs

/-- Descendants of a list of siblings, each sibling included, in order. -/
def descendantsList : List Node → List Node
  | [] => []
  | c :: cs => c :: descendants c ++ descendantsList cs

end

mutual

/-- Text segments of all descendant text nodes, in document order.  This is
the string stream underlying BeautifulSoup `get_text`. -/
def nodeTexts : Node → List String
  | .text s => [s]
  | .elem _ _ _ cs => nodeTextsList cs

/-- Text segments of a list of siblings, in order. -/
def nodeTextsList : List Node → List String
  | [] => []
  | c :: cs => nodeTexts c ++ nodeTextsList cs

end

/-- Model of `get_text(strip=True)`: each descendant string stripped, empty
results dropped, the rest concatenated. -/
def getTextStrip (n : Node) : String :=
  String.join (((nodeTexts n).map strTrim).filter (fun s => s != ""))

/-- Model of BeautifulSoup `.string`: the single text child of an element,
following a unique element child recursively; `none` otherwise. -/
def nodeString : Node → Option String
  | .text s => some s
  | .elem _ _ _ [c] => nodeString c
  | .elem _ _ _ _ => none

/-- Tag-name filter of `find` / `find_all`; text nodes never match. -/
def isTag (t : String) : Node → Bool
  | .elem tag _ _ _ => tag == t
  | .text _ => false

/-- Model of a `class_="c"` string filter: BeautifulSoup matches when `c`
equals one of the class tokens or the whole space-joined class attribute. -/
def classMatches (c : String) : Node → Bool
  | .elem _ classes _ _ =>
      classes.contains c || (String.intercalate " " classes == c)
  | .text _ => false

/-- Combined tag-and-class filter, as in `find("td", class_="field title")`. -/
def tagClass (t c : String) (n : Node) : Bool := isTag t n && classMatches c n

/-- Value of the `href` attribute, when present. -/
def hrefAttr : Node → Option String
  | .elem _ _ h _ => h
  | .text _ => none

/-- Model of `find("a", href=re.compile(pat))` for a literal `pat`: an anchor
whose `href` attribute is present and contains `pat`. -/
def anchorHrefContains (pat : String) (n : Node) : Bool :=
  isTag "a" n &&
    (match hrefAttr n with
     | some h => containsSub h pat
     | none => false)

/-- Model of `find_all` restricted by a decidable filter: all matching
descendants in document order. -/
def findAllEl (p : Node → Bool) (n : Node) : List Node :=
  (descendants n).filter p

/-- Model of `find` restricted by a decidable filter: the first matching
descendant in document order. -/
def findEl (p : Node → Bool) (n : Node) : Option Node :=
  (findAllEl p n).head?

/-- Site base URL (`self.base_url`). -/
def base_url : String := "https://www.goodreads.com"

/-- Modelled from `urllib.parse.urljoin` for the cases arising here: the base
is the bare site origin (no path, no query), so an absolute-URL href is kept,
a root-relative href is appended to the origin, and an empty href yields the
base itself. -/
def urljoin (base href : String) : String :=
  if href == "" then base
  else if strStarts href "http://" || strStarts href "https://" then href
  else if strStarts href "/" then base ++ href
  else base ++ "/" ++ href

/-- Book record produced by `_extract_book_info`: a Python dict whose keys
are added only when extracted, modelled as a fixed record of options.
`avg_rating` is carried as the accepted literal text: the claims under
verification never depend on floating-point values, only on presence. -/
structure BookInfo where
  title : Option String
  book_url : Option String
  author : Option String
  author_url : Option String
  isbn : Option String
  publish_date : Option String
  rating : Option Nat
  avg_rating : Option String
  pages : Option Nat
  shelf : Option String
deriving DecidableEq

/-- First link of the title cell: `find("td", class_="field title")` then
`find("a")` inside it. -/
def titleLink (row : Node) : Option Node :=
  match findEl (tagClass "td" "field title") row with
  | some cell => findEl (isTag "a") cell
  | none => none

/-- Extracted `title`: stripped text of the title cell's first link. -/
def extractTitle (row : Node) : Option String :=
  (titleLink row).map getTextStrip

/-- Extracted `book_url`: the title link's href (defaulting to the empty
string) resolved against the base URL. -/
def extractBookUrl (row : Node) : Option String :=
  (titleLink row).map (fun l => urljoin base_url ((hrefAttr l).getD ""))

/-- First link of the author cell. -/
def authorLink (row : Node) : Option Node :=
  match findEl (tagClass "td" "field author") row with
  | some cell => findEl (isTag "a") cell
  | none => none

/-- Extracted `author`: stripped text of the author cell's first link. -/
def extractAuthor (row : Node) : Option String :=
  (authorLink row).map getTextStrip

/-- Extracted `author_url`: the author link's href resolved against the base
URL. -/
def extractAuthorUrl (row : Node) : Option String :=
  (authorLink row).map (fun l => urljoin base_url ((hrefAttr l).getD ""))

/-- First `div.value` inside a field cell. -/
def valueDiv (cell : Node) : Option Node :=
  findEl (tagClass "div" "value") cell

/-- Extracted `isbn`: value text of the isbn cell, kept when non-empty and
not literally a Python `None` rendering. -/
def extractIsbn (row : Node) : Option String :=
  match findEl (tagClass "td" "field isbn") row with
  | none => none
  | some cell =>
    match valueDiv cell with
    | none => none
    | some v =>
      let t := getTextStrip v
      if t != "" && t != "None" then some t else none

/-- Leftmost occurrence of four consecutive digit characters, as matched by
`re.search` with a four-digit pattern. -/
def findRun4 : List Char → Option (List Char)
  | [] => none
  | c :: cs =>
    match cs with
    | c2 :: c3 :: c4 :: _ =>
      if c.isDigit && c2.isDigit && c3.isDigit && c4.isDigit then
        some [c, c2, c3, c4]
      else findRun4 cs
    | _ => none

/-- String form of `findRun4`. -/
def firstRun4 (s : String) : Option String :=
  (findRun4 s.toList).map (fun cs => String.mk cs)

/-- Extracted `publish_date`: value text of the date_pub cell; when it holds
a four-digit run, only the first such run is kept, otherwise the raw text;
absent when empty or literally a Python `None` rendering. -/
def extractPublishDate (row : Node) : Option String :=
  match findEl (tagClass "td" "field date_pub") row with
  | none => none
  | some cell =>
    match valueDiv cell with
    | none => none
    | some v =>
      let t := getTextStrip v
      if t != "" && t != "None" then
        match firstRun4 t with
        | some r => some r
        | none => some t
      else none

/-- Star indicator spans inside a rating value:
`find_all("span", class_="staticStar")`. -/
def staticStars (v : Node) : List Node :=
  findAllEl (tagClass "span" "staticStar") v

/-- Filled stars: those whose class token list contains `p10` (plain Python
list membership, no joined-attribute fallback). -/
def countFilled (stars : List Node) : Nat :=
  (stars.filter (fun st =>
    match st with
    | .elem _ classes _ _ => classes.contains "p10"
    | .text _ => false)).length

/-- Extracted `rating`: count of filled stars among the star spans of the
rating cell's value, present only when the star list is non-empty and the
count is positive. -/
def extractRating (row : Node) : Option Nat :=
  match findEl (tagClass "td" "field rating") row with
  | none => none
  | some cell =>
    match valueDiv cell with
    | none => none
    | some v =>
      let stars := staticStars v
      if stars.isEmpty then none
      else
        let filled := countFilled stars
        if 0 < filled then some filled else none

/-- Digit-sequence test helper for the float-literal check. -/
def allDigits (l : List Char) : Bool := !l.isEmpty && l.all Char.isDigit

/-- Split a character list at the first exponent marker. -/
def splitAtExpChar : List Char → List Char × Option (List Char)
  | [] => ([], none)
  | c :: cs =>
    if c == 'e' || c == 'E' then ([], some cs)
    else
      let r := splitAtExpChar cs
      (c :: r.1, r.2)

/-- Drop one leading sign character. -/
def stripSign : List Char → List Char
  | c :: cs => if c == '+' || c == '-' then cs else c :: cs
  | [] => []

/-- Unsigned decimal mantissa: digits, optionally with one dot and digit
runs on either side, at least one digit overall. -/
def isUnsignedMantissa (l : List Char) : Bool :=
  let intPart := l.takeWhile Char.isDigit
  match l.dropWhile Char.isDigit with
  | [] => !intPart.isEmpty
  | '.' :: frac =>
      (!intPart.isEmpty || !frac.isEmpty) && frac.all Char.isDigit
  | _ => false

/-- Model of CPython `float(text)` acceptance for the ordinary decimal
forms used by the average-rating column: optional sign, decimal mantissa,
optional exponent.  Special forms (inf, nan, underscores) are omitted; no
verified claim depends on this predicate. -/
def isFloatText (s : String) : Bool :=
  let p := splitAtExpChar (trimChars s.toList)
  match p.2 with
  | none => isUnsignedMantissa (stripSign p.1)
  | some ex => isUnsignedMantissa (stripSign p.1) && allDigits (stripSign ex)

/-- Extracted `avg_rating`: value text of the avg_rating cell, kept (as
text, see `BookInfo`) when non-empty, not a `None` rendering, and accepted
by the float parser. -/
def extractAvgRating (row : Node) : Option String :=
  match findEl (tagClass "td" "field avg_rating") row with
  | none => none
  | some cell =>
    match valueDiv cell with
    | none => none
    | some v =>
      let t := getTextStrip v
      if t != "" && t != "None" && isFloatText t then some t else none

/-- Leftmost maximal run of digits, as matched by `re.search` with a
one-or-more-digits pattern. -/
def firstDigitRun : List Char → Option (List Char)
  | [] => none
  | c :: cs =>
    if c.isDigit then some (c :: cs.takeWhile Char.isDigit)
    else firstDigitRun cs

/-- Decimal value of a digit list, as Python `int` on a digit string. -/
def natOfDigits (l : List Char) : Nat :=
  l.foldl (fun n c => n * 10 + (c.toNat - 48)) 0

/-- Extracted `pages`: first digit run of the num_pages value text, parsed;
absent when the text is empty, a `None` rendering, or has no digits. -/
def extractPages (row : Node) : Option Nat :=
  match findEl (tagClass "td" "field num_pages") row with
  | none => none
  | some cell =>
    match valueDiv cell with
    | none => none
    | some v =>
      let t := getTextStrip v
      if t != "" && t != "None" then (firstDigitRun t.toList).map natOfDigits
      else none

/-- Record assembled by `_extract_book_info` before its final title check:
each field attempted independently, a missing field simply absent. -/
def mkBookInfo (row : Node) : BookInfo :=
  { title := extractTitle row
    book_url := extractBookUrl row
    author := extractAuthor row
    author_url := extractAuthorUrl row
    isbn := extractIsbn row
    publish_date := extractPublishDate row
    rating := extractRating row
    avg_rating := extractAvgRating row
    pages := extractPages row
    shelf := none }

/-- Model of `_extract_book_info`: the assembled record is returned exactly
when its title entry is present and truthy (a non-empty string).  The
structural `except` path of the source, like every other failure, yields no
record, which the total model realises by construction. -/
def _extract_book_info (row : Node) : Option BookInfo :=
  if (mkBookInfo row).title.getD "" != "" then some (mkBookInfo row) else none

/-- Entry-locator strategy 1: table rows with the `bookalike` marker class. -/
def strategy1 (soup : Node) : List Node :=
  findAllEl (tagClass "tr" "bookalike") soup

/-- Book-detail link presence: the row holds an anchor whose href contains
the book-detail path fragment. -/
def hasBookLink (n : Node) : Bool :=
  (findEl (anchorHrefContains "/book/show/") n).isSome

/-- Entry-locator strategy 2: any table row containing a book-detail link
(the source appends to an empty list while scanning all rows in order,
which is this filter). -/
def strategy2 (soup : Node) : List Node :=
  (findAllEl (isTag "tr") soup).filter hasBookLink

/-- Class filter of strategy 3, a `class_` regex alternation: some class
token, or the joined class attribute, contains `book`, `item` or `entry`. -/
def classBookItemEntry : Node → Bool
  | .elem _ classes _ _ =>
      let f := fun (s : String) =>
        containsSub s "book" || containsSub s "item" || containsSub s "entry"
      classes.any f || f (String.intercalate " " classes)
  | .text _ => false

/-- Entry-locator strategy 3: container divs with a book/item/entry class
pattern that hold a book-detail link. -/
def strategy3 (soup : Node) : List Node :=
  (findAllEl (fun n => isTag "div" n && classBookItemEntry n) soup).filter
    hasBookLink

/-- Entry locator shared verbatim by both shelf scrapers: the three
strategies in strict fallback order, the first non-empty result wins. -/
def locateBookEntries (soup : Node) : List Node :=
  let m1 := strategy1 soup
  if !m1.isEmpty then m1
  else
    let m2 := strategy2 soup
    if !m2.isEmpty then m2
    else strategy3 soup

/-- Records extracted from one page: every located entry through
`_extract_book_info`, kept records tagged with the calling shelf name, in
page order. -/
def pageRecords (shelf : String) (soup : Node) : List BookInfo :=
  (locateBookEntries soup).filterMap
    (fun e => (_extract_book_info e).map (fun b => { b with shelf := some shelf }))

/-- Next-page affordance: `find("a", class_="next_page")` succeeds. -/
def hasNextPage (soup : Node) : Bool :=
  (findEl (tagClass "a" "next_page") soup).isSome

/-- Pagination loop shared by both shelf scrapers, with the fetch oracle
made explicit.  The fuel argument is the number of loop iterations the
`while page <= max_pages` guard still allows, so the loop at page `p` with
cap `m` runs with fuel `m + 1 - p`.  The result pairs the accumulated
records with the trace of page numbers actually fetched, in order; a
`none` fetch models a `requests.RequestException` caught by the loop, which
stops and keeps what was accumulated. -/
def scrapeShelfAux (fetch : Nat → Option Node) (shelf : String) :
    Nat → Nat → List BookInfo → List BookInfo × List Nat
  | 0, _, acc => (acc, [])
  | fuel + 1, page, acc =>
    match fetch page with
    | none => (acc, [page])
    | some soup =>
      if (locateBookEntries soup).isEmpty then (acc, [page])
      else
        let pageBooks := pageRecords shelf soup
        if pageBooks.isEmpty then (acc, [page])
        else
          let acc2 := acc ++ pageBooks
          if !hasNextPage soup then (acc2, [page])
          else
            let r := scrapeShelfAux fetch shelf fuel (page + 1) acc2
            (r.1, page :: r.2)

/-- Model of `scrape_read_books` at its default page cap: pages start at 1,
at most 50 are fetched, records are tagged with the `read` shelf. -/
def scrape_read_books (fetch : Nat → Option Node) :
    List BookInfo × List Nat :=
  scrapeShelfAux fetch "read" 50 1 []

/-- Model of `scrape_currently_reading` at its default page cap: pages start
at 1, at most 10 are fetched, records are tagged with the
`currently-reading` shelf. -/
def scrape_currently_reading (fetch : Nat → Option Node) :
    List BookInfo × List Nat :=
  scrapeShelfAux fetch "currently-reading" 10 1 []

/-- Profile record assembled by `scrape_profile`: a dict with up to three
keys, modelled as options. -/
structure ProfileInfo where
  display_name : Option String
  location : Option String
  member_since : Option String
deriving DecidableEq

/-- The `string=re.compile(r"Member since")` filter: a span whose
BeautifulSoup string contains the phrase. -/
def memberSinceSpan (n : Node) : Bool :=
  isTag "span" n &&
    (match nodeString n with
     | some s => containsSub s "Member since"
     | none => false)

/-- Model of `scrape_profile`, the fetch outcome made explicit: a failed or
non-2xx fetch (the `except requests.RequestException` path) degrades to an
empty profile; otherwise the three profile fields are attempted
independently. -/
def scrape_profile (fetched : Option Node) : ProfileInfo :=
  match fetched with
  | none => { display_name := none, location := none, member_since := none }
  | some soup =>
      { display_name :=
          (findEl (tagClass "h1" "userProfileName") soup).map getTextStrip
        location :=
          (findEl (tagClass "span" "userLocation") soup).map getTextStrip
        member_since :=
          (findEl memberSinceSpan soup).map
            (fun j => strTrim (strReplace (getTextStrip j) "Member since" "")) }

/-- Fixed CSV column order of `save_to_csv`. -/
def fieldnames : List String :=
  ["title", "author", "publish_date", "isbn", "rating", "avg_rating",
   "pages", "book_url", "author_url", "shelf"]

/-- CSV cell for a text field: `book.get(field, "")`. -/
def optText (o : Option String) : String := o.getD ""

/-- CSV cell for a numeric field: decimal rendering, empty when absent. -/
def optNat (o : Option Nat) : String := (o.map toString).getD ""

/-- One CSV data row of a record, in the fixed column order, absent fields
rendered as the empty string. -/
def bookRow (b : BookInfo) : List String :=
  [optText b.title, optText b.author, optText b.publish_date,
   optText b.isbn, optNat b.rating, optText b.avg_rating, optNat b.pages,
   optText b.book_url, optText b.author_url, optText b.shelf]

/-- Model of `save_to_csv`: the file content as a list of rows; `none`
models the early return that writes no file (only a console notice) on an
empty record list; otherwise the header row followed by one data row per
record in sequence order. -/
def save_to_csv (books : List BookInfo) : Option (List (List String)) :=
  if books.isEmpty then none
  else some (fieldnames :: books.map bookRow)

/-- Author-key membership in the counting dict, Python `key in dict`. -/
def hasKey (acc : List (String × Nat)) (a : String) : Bool :=
  acc.any (fun p => p.1 == a)

/-- One counting-dict update `authors[a] = authors.get(a, 0) + 1`, on an
insertion-ordered association list, which is what a Python dict is. -/
def bumpAuthor (acc : List (String × Nat)) (a : String) :
    List (String × Nat) :=
  if hasKey acc a then
    acc.map (fun p => if p.1 == a then (p.1, p.2 + 1) else p)
  else acc ++ [(a, 1)]

/-- One iteration of the author-counting loop of `print_books_summary`:
records whose author is absent or empty (falsy) are skipped. -/
def authorStep (acc : List (String × Nat)) (b : BookInfo) :
    List (String × Nat) :=
  match b.author with
  | some a => if a != "" then bumpAuthor acc a else acc
  | none => acc

/-- Author counts in first-seen key order, as `authors.items()` yields
them. -/
def authorCounts (books : List BookInfo) : List (String × Nat) :=
  books.foldl authorStep []

/-- Insertion step of a stable descending-by-count sort: walk past strictly
greater counts, insert before the first equal-or-smaller one. -/
def insertDesc (x : String × Nat) : List (String × Nat) → List (String × Nat)
  | [] => [x]
  | y :: ys => if x.2 < y.2 then y :: insertDesc x ys else x :: y :: ys

/-- Stable descending-by-count sort.  Python `sorted(key=count,
reverse=True)` is a stable descending sort, and a stable sort's output is
determined by the order and keys alone, so this insertion sort computes the
same list. -/
def sortCountDesc (l : List (String × Nat)) : List (String × Nat) :=
  l.foldr insertDesc []

/-- The console top-authors ranking: the sorted counts truncated to 10. -/
def topAuthors (books : List BookInfo) : List (String × Nat) :=
  (sortCountDesc (authorCounts books)).take 10

/-- One step of collecting author names in first-seen order over the input
sequence (the reference order for tie-breaking). -/
def nameStep (names : List String) (b : BookInfo) : List String :=
  match b.author with
  | some a =>
      if a != "" && !(names.any (fun s => s == a)) then names ++ [a]
      else names
  | none => names

/-- Author names in the order their first record occurs in the input. -/
def firstSeenAuthors (books : List BookInfo) : List String :=
  books.foldl nameStep []

/-- Record with every field absent, for concrete CSV checks. -/
def emptyBook : BookInfo :=
  { title := none, book_url := none, author := none, author_url := none,
    isbn := none, publish_date := none, rating := none, avg_rating := none,
    pages := none, shelf := none }

/-- Concrete title cell: the markup shape of a shelf row's title field. -/
def exTitleCell : Node :=
  .elem "td" ["field", "title"] none
    [.elem "a" [] (some "/book/show/123") [.text " Dune "]]

/-- Concrete publish-date cell with the spec's example date text. -/
def exDateCell : Node :=
  .elem "td" ["field", "date_pub"] none
    [.elem "div" ["value"] none [.text "Mar 26, 1920"]]

/-- Star indicator span with the given extra class tokens. -/
def star (cls : List String) : Node :=
  .elem "span" ("staticStar" :: cls) none []

/-- Concrete rating cell with three filled stars out of five. -/
def exRatingCell3 : Node :=
  .elem "td" ["field", "rating"] none
    [.elem "div" ["value"] none
      [star ["p10"], star ["p10"], star ["p10"], star ["p0"], star ["p0"]]]

/-- Concrete rating cell with six filled-star spans, a shape the extractor
never guards against. -/
def exRatingCell6 : Node :=
  .elem "td" ["field", "rating"] none
    [.elem "div" ["value"] none
      [star ["p10"], star ["p10"], star ["p10"], star ["p10"], star ["p10"],
       star ["p10"]]]

/-- Concrete full row: title, publish date and a three-star rating. -/
def exRowFull : Node :=
  .elem "tr" ["bookalike"] none [exTitleCell, exDateCell, exRatingCell3]

/-- Concrete row whose rating cell carries six filled stars. -/
def exRowSix : Node := .elem "tr" ["bookalike"] none [exTitleCell, exRatingCell6]

/-- Concrete row with an author cell but no title cell at all. -/
def exRowNoTitle : Node :=
  .elem "tr" ["bookalike"] none
    [.elem "td" ["field", "author"] none
      [.elem "a" [] (some "/author/show/9") [.text "Herbert"]]]

/-- Plain table row holding a book-detail link but no marker class. -/
def trB (i : Nat) : Node :=
  .elem "tr" [] none
    [.elem "a" [] (some ("/book/show/" ++ toString i)) [.text "B"]]

/-- Concrete page on which strategy 1 finds nothing and strategy 2 finds
exactly three rows. -/
def soup3 : Node :=
  .elem "html" [] none [.elem "table" [] none [trB 1, trB 2, trB 3]]

/-- Concrete page with one located entry yielding no record, plus a
next-page affordance. -/
def soupZero : Node :=
  .elem "html" [] none
    [.elem "table" [] none [exRowNoTitle],
     .elem "a" ["next_page"] none [.text "next"]]

/-- Helper: the record kept for a row carries exactly the per-field
extraction results of that row. -/
theorem kept_record_fields (row : Node) (b : BookInfo)
    (h : _extract_book_info row = some b) :
    b.title = extractTitle row ∧ b.book_url = extractBookUrl row ∧
    b.publish_date = extractPublishDate row ∧ b.rating = extractRating row := by
  unfold _extract_book_info at h
  split at h
  · cases h
    exact ⟨rfl, rfl, rfl, rfl⟩
  · cases h

/-- Helper: the title entry of the assembled record is the extracted
title. -/
theorem mkBookInfo_title (row : Node) : (mkBookInfo row).title = extractTitle row :=
  rfl

/-- C1: a candidate row yields a record exactly when a non-empty title was
extracted from the first link of its title cell; in particular a row with no
title link (or no title cell, making `titleLink` fail) yields no record,
whatever other fields it carries. -/
theorem extract_record_iff_nonempty_title (row : Node) :
    ((∃ b, _extract_book_info row = some b) ↔ (extractTitle row).getD "" ≠ "") ∧
    (titleLink row = none → _extract_book_info row = none) := by
  constructor
  · unfold _extract_book_info
    split
    · next h => simpa using bne_iff_ne.mp h
    · next h =>
      simp only [bne_iff_ne, ne_eq, Decidable.not_not, mkBookInfo_title] at h
      simp [h]
  · intro ht
    unfold _extract_book_info
    simp [mkBookInfo_title, extractTitle, ht]

/-- Witness for C1 on a concrete row without a title cell. -/
theorem extract_record_iff_nonempty_title_witness :
    titleLink exRowNoTitle = none ∧ _extract_book_info exRowNoTitle = none :=
  ⟨rfl, (extract_record_iff_nonempty_title exRowNoTitle).2 rfl⟩

/-- Helper: resolving any href against the site base never yields the empty
string. -/
theorem urljoin_base_ne_empty (href : String) : urljoin base_url href ≠ "" := by
  have hb : base_url.length ≠ 0 := by decide
  unfold urljoin
  split
  · next h => decide
  · next h =>
    split
    · next =>
      intro hc
      subst hc
      simp at h
    · next =>
      split
      · intro hc
        have hlen := congrArg String.length hc
        rw [String.length_append] at hlen
        simp at hlen
        omega
      · intro hc
        have hlen := congrArg String.length hc
        rw [String.length_append, String.length_append] at hlen
        simp at hlen
        omega

/-- C10: every record the extractor keeps has its `book_url` field set, to a
non-empty resolved URL, because title and book_url are set together from the
same title link; so no exported row pairs a title with an empty book_url
cell. -/
theorem kept_record_has_book_url (row : Node) (b : BookInfo)
    (h : _extract_book_info row = some b) :
    ∃ u, b.book_url = some u ∧ u ≠ "" := by
  have hf := kept_record_fields row b h
  unfold _extract_book_info at h
  split at h
  · next hcond =>
    rw [mkBookInfo_title] at hcond
    have hbu := hf.2.1
    unfold extractBookUrl at hbu
    unfold extractTitle at hcond
    cases hl : titleLink row with
    | none => rw [hl] at hcond; simp at hcond
    | some l =>
      rw [hl] at hbu
      exact ⟨_, hbu, urljoin_base_ne_empty _⟩
  · cases h

/-- Witness for C10 on a concrete kept row. -/
theorem kept_record_has_book_url_witness :
    ∃ b, _extract_book_info exRowFull = some b ∧
      ∃ u, b.book_url = some u ∧ u ≠ "" := by
  have hx : _extract_book_info exRowFull = some (mkBookInfo exRowFull) := by
    decide
  exact ⟨mkBookInfo exRowFull, hx,
    kept_record_has_book_url exRowFull (mkBookInfo exRowFull) hx⟩

/-- C3: for a publish-date cell whose value sub-element has trimmed text t,
the extractor keeps exactly the first four-digit run of t when one exists,
the raw text t otherwise, and nothing when t is empty or literally None;
the kept record's publish_date is exactly this extraction. -/
theorem publish_date_first_year_run (row cell v : Node)
    (hc : findEl (tagClass "td" "field date_pub") row = some cell)
    (hv : valueDiv cell = some v) :
    ((getTextStrip v ≠ "" ∧ getTextStrip v ≠ "None") →
       ((∀ r, firstRun4 (getTextStrip v) = some r →
           extractPublishDate row = some r) ∧
        (firstRun4 (getTextStrip v) = none →
           extractPublishDate row = some (getTextStrip v)))) ∧
    ((getTextStrip v = "" ∨ getTextStrip v = "None") →
       extractPublishDate row = none) ∧
    (∀ b, _extract_book_info row = some b →
       b.publish_date = extractPublishDate row) := by
  refine ⟨?_, ?_, fun b h => (kept_record_fields row b h).2.2.1⟩
  · intro ht
    unfold extractPublishDate
    rw [hc]
    dsimp only
    rw [hv]
    have hcond : (getTextStrip v != "" && getTextStrip v != "None") = true := by
      simp [bne_iff_ne]
      exact ht
    constructor
    · intro r hr
      simp [hcond, hr]
    · intro hr
      simp [hcond, hr]
  · intro ht
    unfold extractPublishDate
    rw [hc]
    dsimp only
    rw [hv]
    have hcond : (getTextStrip v != "" && getTextStrip v != "None") = false := by
      rcases ht with h | h <;> simp [h]
    simp [hcond]

/-- Witness for C3: the spec's example date text yields exactly its year. -/
theorem publish_date_first_year_run_witness :
    getTextStrip (Node.elem "div" ["value"] none [.text "Mar 26, 1920"]) =
      "Mar 26, 1920" ∧
    firstRun4 "Mar 26, 1920" = some "1920" ∧
    extractPublishDate exRowFull = some "1920" := by
  refine ⟨by decide, by decide, ?_⟩
  exact ((publish_date_first_year_run exRowFull exDateCell
      (Node.elem "div" ["value"] none [.text "Mar 26, 1920"])
      rfl rfl).1 (by decide)).1 "1920" (by decide)

/-- C4 counterexample: a row whose rating cell's value holds six filled-star
spans yields a kept record whose rating is 6, outside 1..5 — the extractor
counts `p10` stars with no upper bound, so the claimed 1-to-5 range does not
hold for every rating cell. -/
theorem rating_can_exceed_five :
    ((_extract_book_info exRowSix).map BookInfo.rating) = some (some 6) ∧
    ¬(1 ≤ 6 ∧ 6 ≤ 5) := by
  constructor
  · have hx : _extract_book_info exRowSix = some (mkBookInfo exRowSix) := by
      decide
    rw [hx]
    decide
  · decide

/-- C4 amended: the record's rating equals the count of filled-star
sub-elements of the rating cell's value, is present exactly when that count
is positive, and lies in 1..5 whenever the cell carries at most five star
sub-elements (as real shelf pages do); the kept record's rating is exactly
this extraction. -/
theorem rating_counts_filled_stars (row cell v : Node)
    (hc : findEl (tagClass "td" "field rating") row = some cell)
    (hv : valueDiv cell = some v) :
    (0 < countFilled (staticStars v) →
        extractRating row = some (countFilled (staticStars v))) ∧
    (countFilled (staticStars v) = 0 → extractRating row = none) ∧
    ((staticStars v).length ≤ 5 →
        ∀ r, extractRating row = some r → 1 ≤ r ∧ r ≤ 5) ∧
    (∀ b, _extract_book_info row = some b → b.rating = extractRating row) := by
  have hbound : countFilled (staticStars v) ≤ (staticStars v).length :=
    List.length_filter_le _ _
  have hrw : extractRating row =
      if (staticStars v).isEmpty then none
      else if 0 < countFilled (staticStars v) then
        some (countFilled (staticStars v))
      else none := by
    unfold extractRating
    rw [hc]
    dsimp only
    rw [hv]
  refine ⟨?_, ?_, ?_, fun b h => (kept_record_fields row b h).2.2.2⟩
  · intro hpos
    have hne : (staticStars v).isEmpty = false := by
      cases hs : staticStars v with
      | nil => rw [hs] at hpos; simp [countFilled] at hpos
      | cons a l => simp [hs]
    rw [hrw, hne]
    simp [hpos]
  · intro hz
    rw [hrw, hz]
    split <;> simp
  · intro hlen r hr
    rw [hrw] at hr
    by_cases he : (staticStars v).isEmpty
    · simp [he] at hr
    · simp [he] at hr
      by_cases hp : 0 < countFilled (staticStars v)
      · simp [hp] at hr
        omega
      · simp [hp] at hr

/-- Witness for the amended C4: three filled stars out of five yield rating
3; the record keeps it. -/
theorem rating_counts_filled_stars_witness :
    countFilled (staticStars (Node.elem "div" ["value"] none
      [star ["p10"], star ["p10"], star ["p10"], star ["p0"], star ["p0"]])) = 3 ∧
    extractRating exRowFull = some 3 := by
  refine ⟨by decide, ?_⟩
  have h := (rating_counts_filled_stars exRowFull exRatingCell3
      (Node.elem "div" ["value"] none
        [star ["p10"], star ["p10"], star ["p10"], star ["p0"], star ["p0"]])
      rfl rfl).1 (by decide)
  simpa using h

/-- C2: the entry locator applies its three strategies in strict fallback
order and returns the result of the first that yields any candidates, so a
non-empty strategy-2 result is returned unchanged whenever strategy 1 found
nothing, and strategy 3's scan decides only when both earlier strategies
found nothing. -/
theorem locator_strict_fallback (soup : Node) :
    (strategy1 soup ≠ [] → locateBookEntries soup = strategy1 soup) ∧
    (strategy1 soup = [] → strategy2 soup ≠ [] →
        locateBookEntries soup = strategy2 soup) ∧
    (strategy1 soup = [] → strategy2 soup = [] →
        locateBookEntries soup = strategy3 soup) := by
  unfold locateBookEntries
  refine ⟨fun h1 => ?_, fun h1 h2 => ?_, fun h1 h2 => ?_⟩
  · simp [List.isEmpty_iff, h1]
  · simp [List.isEmpty_iff, h1, h2]
  · simp [List.isEmpty_iff, h1, h2]

/-- Witness for C2: on a page where strategy 1 yields zero rows and
strategy 2 yields three, exactly those three rows are returned. -/
theorem locator_strict_fallback_witness :
    strategy1 soup3 = [] ∧ strategy2 soup3 = [trB 1, trB 2, trB 3] ∧
    locateBookEntries soup3 = [trB 1, trB 2, trB 3] ∧
    (locateBookEntries soup3).length = 3 := by
  have h1 : strategy1 soup3 = [] := rfl
  have h2 : strategy2 soup3 = [trB 1, trB 2, trB 3] := rfl
  have h3 : locateBookEntries soup3 = strategy2 soup3 :=
    (locator_strict_fallback soup3).2.1 h1
      (by rw [h2]; exact List.cons_ne_nil _ _)
  refine ⟨h1, h2, by rw [h3, h2], by rw [h3, h2]; rfl⟩

/-- C5: exporting an empty record sequence writes no file; exporting a
non-empty sequence writes the header row followed by one data row per record
in sequence order, in the fixed column order, with the empty string in every
column whose field is absent. -/
theorem csv_export_shape :
    save_to_csv [] = none ∧
    (∀ bs : List BookInfo, bs ≠ [] →
        save_to_csv bs = some (fieldnames :: bs.map bookRow)) ∧
    (∀ bs : List BookInfo, (bs.map bookRow).length = bs.length) ∧
    (∀ b : BookInfo, b.title = none → (bookRow b).getD 0 "" = "") ∧
    (∀ b : BookInfo, b.author = none → (bookRow b).getD 1 "" = "") ∧
    (∀ b : BookInfo, b.publish_date = none → (bookRow b).getD 2 "" = "") ∧
    (∀ b : BookInfo, b.isbn = none → (bookRow b).getD 3 "" = "") ∧
    (∀ b : BookInfo, b.rating = none → (bookRow b).getD 4 "" = "") ∧
    (∀ b : BookInfo, b.avg_rating = none → (bookRow b).getD 5 "" = "") ∧
    (∀ b : BookInfo, b.pages = none → (bookRow b).getD 6 "" = "") ∧
    (∀ b : BookInfo, b.book_url = none → (bookRow b).getD 7 "" = "") ∧
    (∀ b : BookInfo, b.author_url = none → (bookRow b).getD 8 "" = "") ∧
    (∀ b : BookInfo, b.shelf = none → (bookRow b).getD 9 "" = "") := by
  refine ⟨rfl, fun bs h => ?_, fun bs => List.length_map _ _, ?_, ?_, ?_, ?_,
    ?_, ?_, ?_, ?_, ?_, ?_⟩ <;>
    first
      | (intro b hb; simp [bookRow, optText, optNat, hb])
      | simp [save_to_csv, List.isEmpty_iff, h]

/-- Witness for C5 on the all-absent record: every cell of its row is
empty, and a singleton export is header plus that one row. -/
theorem csv_export_shape_witness :
    save_to_csv [] = none ∧
    save_to_csv [emptyBook] = some [fieldnames, bookRow emptyBook] ∧
    (bookRow emptyBook).getD 0 "" = "" ∧ (bookRow emptyBook).getD 4 "" = "" := by
  refine ⟨csv_export_shape.1, ?_, ?_, ?_⟩
  · have h := csv_export_shape.2.1 [emptyBook] (List.cons_ne_nil _ _)
    simpa using h
  · exact csv_export_shape.2.2.2.1 emptyBook rfl
  · exact csv_export_shape.2.2.2.2.2.2.2.1 emptyBook rfl

/-- Helper: the pagination loop fetches at most as many pages as it has
loop iterations left. -/
theorem scrapeShelfAux_trace_le (fetch : Nat → Option Node) (shelf : String) :
    ∀ (fuel page : Nat) (acc : List BookInfo),
      (scrapeShelfAux fetch shelf fuel page acc).2.length ≤ fuel := by
  intro fuel
  induction fuel with
  | zero => intro page acc; simp [scrapeShelfAux]
  | succ n ih =>
    intro page acc
    unfold scrapeShelfAux
    cases hf : fetch page with
    | none => simp
    | some soup =>
      by_cases h1 : (locateBookEntries soup).isEmpty
      · simp [h1]
      · simp only [h1, Bool.false_eq_true, if_false]
        by_cases h2 : (pageRecords shelf soup).isEmpty
        · simp [h2]
        · simp only [h2, Bool.false_eq_true, if_false]
          by_cases h3 : hasNextPage soup
          · simp only [h3, Bool.not_true, Bool.false_eq_true, if_false]
            have := ih (page + 1) (acc ++ pageRecords shelf soup)
            simpa using this
          · simp [h3]

/-- C6: a fetched page from which zero records were extracted ends the
pagination loop at once — the trace of fetched pages stops at that page and
the records accumulated so far are returned — even when the page carries a
next-page affordance. -/
theorem pagination_stops_on_zero_records (fetch : Nat → Option Node)
    (shelf : String) (fuel page : Nat) (acc : List BookInfo) (soup : Node)
    (hf : fetch page = some soup) (hz : pageRecords shelf soup = [])
    (_hn : hasNextPage soup = true) :
    scrapeShelfAux fetch shelf (fuel + 1) page acc = (acc, [page]) := by
  unfold scrapeShelfAux
  rw [hf]
  by_cases he : (locateBookEntries soup).isEmpty
  · simp [he]
  · simp [he, hz]

/-- Witness for C6 on a concrete page with one unextractable entry and a
next-page link. -/
theorem pagination_stops_on_zero_records_witness :
    pageRecords "read" soupZero = [] ∧ hasNextPage soupZero = true ∧
    scrapeShelfAux (fun _ => some soupZero) "read" 3 1 [] = ([], [1]) := by
  have hz : pageRecords "read" soupZero = [] := rfl
  have hn : hasNextPage soupZero = true := rfl
  exact ⟨hz, hn,
    pagination_stops_on_zero_records (fun _ => some soupZero) "read" 2 1 []
      soupZero rfl hz hn⟩

/-- C7: for every fetch oracle the shelf pagination (a total function)
fetches at most `max_pages` pages — 50 for the read shelf, 10 for the
currently-reading shelf, their bound values in the model — starting at page
1, and stops at once on a fetch failure or on a page with no entries, no
extracted records, or no next-page affordance. -/
theorem pagination_page_cap :
    (∀ (fetch : Nat → Option Node) (shelf : String) (fuel page : Nat)
        (acc : List BookInfo),
        (scrapeShelfAux fetch shelf fuel page acc).2.length ≤ fuel) ∧
    (∀ fetch : Nat → Option Node,
        scrape_read_books fetch = scrapeShelfAux fetch "read" 50 1 [] ∧
        (scrape_read_books fetch).2.length ≤ 50) ∧
    (∀ fetch : Nat → Option Node,
        scrape_currently_reading fetch =
          scrapeShelfAux fetch "currently-reading" 10 1 [] ∧
        (scrape_currently_reading fetch).2.length ≤ 10) ∧
    (∀ (fetch : Nat → Option Node) (shelf : String) (fuel page : Nat)
        (acc : List BookInfo), fetch page = none →
        (scrapeShelfAux fetch shelf (fuel + 1) page acc).2 = [page]) ∧
    (∀ (fetch : Nat → Option Node) (shelf : String) (fuel page : Nat)
        (acc : List BookInfo) (soup : Node), fetch page = some soup →
        ((locateBookEntries soup).isEmpty = true ∨
         (pageRecords shelf soup).isEmpty = true ∨
         hasNextPage soup = false) →
        (scrapeShelfAux fetch shelf (fuel + 1) page acc).2 = [page]) := by
  refine ⟨fun fetch shelf => scrapeShelfAux_trace_le fetch shelf,
    fun fetch => ⟨rfl, scrapeShelfAux_trace_le fetch "read" 50 1 []⟩,
    fun fetch => ⟨rfl, scrapeShelfAux_trace_le fetch "currently-reading" 10 1 []⟩,
    fun fetch shelf fuel page acc hf => ?_,
    fun fetch shelf fuel page acc soup hf hstop => ?_⟩
  · unfold scrapeShelfAux
    rw [hf]
  · unfold scrapeShelfAux
    rw [hf]
    dsimp only
    rcases hstop with h | h | h
    · simp [h]
    · by_cases he : (locateBookEntries soup).isEmpty
      · simp [he]
      · simp [he, h]
    · by_cases he : (locateBookEntries soup).isEmpty
      · simp [he]
      · by_cases hp : (pageRecords shelf soup).isEmpty
        · simp [he, hp]
        · simp [he, hp, h]

/-- Witness for C7: a failing fetch oracle under the read-shelf default cap
stays within the bound and fetches only page 1. -/
theorem pagination_page_cap_witness :
    (scrape_read_books (fun _ => none)).2.length ≤ 50 ∧
    (scrapeShelfAux (fun _ => none) "read" 50 1 []).2 = [1] := by
  refine ⟨(pagination_page_cap.2.1 (fun _ => none)).2, ?_⟩
  exact pagination_page_cap.2.2.2.1 (fun _ => none) "read" 49 1 [] rfl

/-- C8: a transport-level failure (or non-2xx status) while fetching a shelf
page makes the shelf scrape return the records accumulated so far, without
raising and without fetching further pages; a failed profile fetch returns
the empty profile. -/
theorem fetch_failure_degrades_gracefully :
    (∀ (fetch : Nat → Option Node) (shelf : String) (fuel page : Nat)
        (acc : List BookInfo), fetch page = none →
        scrapeShelfAux fetch shelf (fuel + 1) page acc = (acc, [page])) ∧
    scrape_profile none =
      { display_name := none, location := none, member_since := none } := by
  refine ⟨fun fetch shelf fuel page acc hf => ?_, rfl⟩
  unfold scrapeShelfAux
  rw [hf]

/-- Witness for C8: a failing fetch at page 7 keeps the earlier-page
records, and the failed profile fetch yields the empty profile. -/
theorem fetch_failure_degrades_gracefully_witness :
    scrapeShelfAux (fun _ => none) "read" 44 7 [emptyBook] =
      ([emptyBook], [7]) ∧
    scrape_profile none =
      { display_name := none, location := none, member_since := none } :=
  ⟨fetch_failure_degrades_gracefully.1 (fun _ => none) "read" 43 7 [emptyBook]
      rfl,
   fetch_failure_degrades_gracefully.2⟩

/-- Helper: membership in an insertion step. -/
theorem mem_insertDesc {x y : String × Nat} {l : List (String × Nat)} :
    y ∈ insertDesc x l ↔ y = x ∨ y ∈ l := by
  induction l with
  | nil => simp [insertDesc]
  | cons z zs ih =>
    unfold insertDesc
    by_cases h : x.2 < z.2
    · rw [if_pos h]
      simp only [List.mem_cons, ih]
      tauto
    · rw [if_neg h]
      simp only [List.mem_cons]

/-- Helper: inserting into a descending-by-count list keeps it descending. -/
theorem pairwise_insertDesc {x : String × Nat} {l : List (String × Nat)}
    (h : List.Pairwise (fun p q => q.2 ≤ p.2) l) :
    List.Pairwise (fun p q => q.2 ≤ p.2) (insertDesc x l) := by
  induction l with
  | nil => simp [insertDesc]
  | cons z zs ih =>
    rw [List.pairwise_cons] at h
    unfold insertDesc
    by_cases hlt : x.2 < z.2
    · rw [if_pos hlt, List.pairwise_cons]
      refine ⟨fun y hy => ?_, ih h.2⟩
      rcases mem_insertDesc.mp hy with rfl | hy
      · omega
      · exact h.1 y hy
    · rw [if_neg hlt, List.pairwise_cons]
      refine ⟨fun y hy => ?_, List.pairwise_cons.mpr h⟩
      rcases List.mem_cons.mp hy with rfl | hy
      · omega
      · have := h.1 y hy
        omega

/-- Helper: the descending-by-count sort is descending. -/
theorem pairwise_sortCountDesc (l : List (String × Nat)) :
    List.Pairwise (fun p q => q.2 ≤ p.2) (sortCountDesc l) := by
  induction l with
  | nil => simp [sortCountDesc]
  | cons x xs ih => exact pairwise_insertDesc ih

/-- Helper: an insertion step seen through a fixed-count filter either
prepends the inserted pair or is invisible, because the pairs it walks past
have strictly greater counts. -/
theorem filter_insertDesc (c : Nat) (x : String × Nat)
    (l : List (String × Nat)) :
    (insertDesc x l).filter (fun p => p.2 == c) =
      if x.2 == c then x :: l.filter (fun p => p.2 == c)
      else l.filter (fun p => p.2 == c) := by
  induction l with
  | nil =>
    unfold insertDesc
    by_cases hxc : x.2 == c
    · simp [List.filter_cons, hxc]
    · have hxc' : (x.2 == c) = false := by simpa using hxc
      simp [List.filter_cons, hxc']
  | cons z zs ih =>
    unfold insertDesc
    by_cases hlt : x.2 < z.2
    · rw [if_pos hlt]
      by_cases hxc : x.2 == c
      · have hx : x.2 = c := by simpa using hxc
        have hzc : (z.2 == c) = false := by
          have : ¬(z.2 = c) := by omega
          simpa using this
        simp only [List.filter_cons, hzc, if_false]
        rw [ih]
        simp [hxc, hzc, List.filter_cons]
      · have hxc' : (x.2 == c) = false := by simpa using hxc
        simp only [List.filter_cons]
        rw [ih]
        simp [hxc', List.filter_cons]
    · rw [if_neg hlt]
      by_cases hxc : x.2 == c
      · simp [List.filter_cons, hxc]
      · have hxc' : (x.2 == c) = false := by simpa using hxc
        simp [List.filter_cons, hxc']

/-- Helper: the sort is stable — through any fixed-count filter it is the
identity, so entries of equal count keep their relative (first-seen)
order. -/
theorem filter_sortCountDesc (c : Nat) (l : List (String × Nat)) :
    (sortCountDesc l).filter (fun p => p.2 == c) =
      l.filter (fun p => p.2 == c) := by
  induction l with
  | nil => rfl
  | cons x xs ih =>
    show (insertDesc x (sortCountDesc xs)).filter (fun p => p.2 == c) = _
    rw [filter_insertDesc]
    by_cases hxc : x.2 == c
    · simp [List.filter_cons, hxc, ih]
    · have hxc' : (x.2 == c) = false := by simpa using hxc
      simp [List.filter_cons, hxc', ih]

/-- Helper: a counting-dict update leaves the key order unchanged when the
key exists and appends it otherwise. -/
theorem mapFst_bumpAuthor (acc : List (String × Nat)) (a : String) :
    (bumpAuthor acc a).map Prod.fst =
      if hasKey acc a then acc.map Prod.fst else acc.map Prod.fst ++ [a] := by
  unfold bumpAuthor
  by_cases h : hasKey acc a
  · rw [if_pos h, if_pos h, List.map_map]
    have hfun : (Prod.fst ∘ fun p : String × Nat =>
        if p.1 == a then (p.1, p.2 + 1) else p) = Prod.fst := by
      funext p
      by_cases hq : p.1 == a <;> simp [Function.comp, hq]
    rw [hfun]
  · rw [if_neg h, if_neg h]
    simp

/-- Helper: key membership seen through the key projection. -/
theorem hasKey_eq (acc : List (String × Nat)) (a : String) :
    hasKey acc a = (acc.map Prod.fst).any (fun s => s == a) := by
  induction acc with
  | nil => rfl
  | cons p ps ih =>
    simp only [hasKey, List.any_cons, List.map_cons] at ih ⊢
    rw [ih]

/-- Helper: one author-counting step projects to one first-seen-name
step. -/
theorem mapFst_authorStep (acc : List (String × Nat)) (b : BookInfo) :
    (authorStep acc b).map Prod.fst = nameStep (acc.map Prod.fst) b := by
  cases hb : b.author with
  | none => simp [authorStep, nameStep, hb]
  | some a =>
    simp only [authorStep, nameStep, hb]
    by_cases ha : a != ""
    · rw [if_pos ha, mapFst_bumpAuthor]
      by_cases hk : hasKey acc a
      · have hany : ((acc.map Prod.fst).any (fun s => s == a)) = true := by
          rw [← hasKey_eq]; exact hk
        simp [hk, ha, hany]
      · have hany : ((acc.map Prod.fst).any (fun s => s == a)) = false := by
          rw [← hasKey_eq]; simpa using hk
        simp [hk, ha, hany]
    · have ha' : (a != "") = false := by simpa using ha
      simp [ha']

/-- Helper: the counting dict's key order is the first-seen order of
authors in the input. -/
theorem mapFst_foldl_authorStep (books : List BookInfo) :
    ∀ acc : List (String × Nat),
      (books.foldl authorStep acc).map Prod.fst =
        books.foldl nameStep (acc.map Prod.fst) := by
  induction books with
  | nil => intro acc; rfl
  | cons b bs ih =>
    intro acc
    rw [List.foldl_cons, List.foldl_cons, ih, mapFst_authorStep]

/-- C9: the console author ranking lists at most 10 entries, in descending
count order; the underlying stable sort leaves entries of any fixed count
in dict order, and the dict's key order is the first-seen order of authors
in the input sequence, so equal counts tie-break by first occurrence. -/
theorem top_authors_ranking (books : List BookInfo) :
    (topAuthors books).length ≤ 10 ∧
    List.Pairwise (fun p q : String × Nat => q.2 ≤ p.2) (topAuthors books) ∧
    (∀ c : Nat,
        (sortCountDesc (authorCounts books)).filter (fun p => p.2 == c) =
          (authorCounts books).filter (fun p => p.2 == c)) ∧
    (authorCounts books).map Prod.fst = firstSeenAuthors books := by
  refine ⟨List.length_take_le _ _, ?_, fun c => filter_sortCountDesc c _, ?_⟩
  · exact List.Pairwise.sublist (List.take_sublist _ _)
      (pairwise_sortCountDesc (authorCounts books))
  · exact mapFst_foldl_authorStep books []
